import Mathlib

/-!
Shallow embedding of the WarpX implicit-solver state vector
(class `WarpXSolverVec`, header `Source/FieldSolver/ImplicitSolvers/WarpXSolverVec.H`)
together with the static ownership-mask state used by its masked dot product.

Modelling conventions:

* `amrex::Real` values are modelled exactly, as rationals.
* An `amrex::MultiFab` is modelled by its box layout (the ordered list of
  global mesh-point ids backing the local storage locations, where a repeated
  id models a mesh point duplicated across overlapping patches or periodic
  images), a distribution-map id, a component count, a ghost-cell width, and
  the list of component-0 values on the valid region.
* `WARPX_ALWAYS_ASSERT_WITH_MESSAGE` aborts with a diagnostic in every build;
  `AMREX_ASSERT_WITH_MESSAGE` aborts only in debug builds and is compiled out
  otherwise; indexing an `amrex::Vector` past its end is undefined behaviour.
  The three outcomes are modelled as distinct `Except` errors, with a `dbg`
  flag selecting the build mode where it matters.
* The class hardcodes one AMR level (`m_num_amr_levels = 1`) and three field
  components; the per-level loops of the source, which always run exactly one
  iteration at level 0, are embedded as an access to index 0 of the level
  vector (out of bounds when the vector is still empty, exactly as in the
  source).
-/

/-- How a C++ run of an operation can fail in this model: a
`WARPX_ALWAYS_ASSERT_WITH_MESSAGE` diagnostic (active in every build), an
`AMREX_ASSERT_WITH_MESSAGE` diagnostic (active only in debug builds), or an
unchecked container access past the end (undefined behaviour, no diagnostic). -/
inductive VecError where
  | fatalAssert (msg : String)
  | debugAssert (msg : String)
  | outOfBounds
deriving DecidableEq, Repr

/-- `WARPX_ALWAYS_ASSERT_WITH_MESSAGE`: checked in every build. -/
def warpxAlwaysAssert (cond : Bool) (msg : String) : Except VecError Unit :=
  if cond then Except.ok () else Except.error (VecError.fatalAssert msg)

/-- `AMREX_ASSERT_WITH_MESSAGE`: checked only when `dbg` (a debug build). -/
def amrexAssert (dbg : Bool) (cond : Bool) (msg : String) : Except VecError Unit :=
  if dbg && !cond then Except.error (VecError.debugAssert msg) else Except.ok ()

/-- Unchecked `amrex::Vector::operator[]`: past-the-end access is undefined
behaviour in C++ and surfaces as the `outOfBounds` error in this model. -/
def listAt {α : Type} (l : List α) (i : Nat) : Except VecError α :=
  match l.get? i with
  | some a => Except.ok a
  | none => Except.error VecError.outOfBounds

/-- A box array together with its distribution map: the ordered list of global
mesh-point ids backing the local storage locations (repeated ids model points
duplicated across overlapping patches or periodic images) and an abstract
distribution-map id. -/
structure BoxLayout where
  pts : List Nat
  dm : Nat
deriving DecidableEq, Repr

/-- Model of an `amrex::MultiFab`: layout, component count, ghost width, and
the component-0 values on the valid region (one entry per `ba.pts` slot). -/
structure MultiFab where
  ba : BoxLayout
  nComp : Nat
  nGrow : Nat
  vals : List Rat
deriving DecidableEq, Repr

/-- Modelled from the spec: the external array allocation primitive consumed
from the mesh collaborator (spec section 6, and section 4.1 "allocates matching
storage with zero-filled halo-free layout") — a fresh array over the given box
layout and distribution with the requested component count and ghost width,
its values zero-filled. -/
def MultiFab.make (ba : BoxLayout) (nComp nGrow : Nat) : MultiFab :=
  { ba := ba, nComp := nComp, nGrow := nGrow,
    vals := List.replicate ba.pts.length 0 }

/-- Modelled from the spec: the external elementwise add primitive
(`MultiFab::plus` over component 0, no ghost cells); defined for operands of
identical partitioning, which every caller in the source requires. -/
def MultiFab.plus (dst src : MultiFab) : MultiFab :=
  { dst with vals := List.zipWith (fun a b => a + b) dst.vals src.vals }

/-- Modelled from the spec: the external elementwise subtract primitive
(`MultiFab::minus` over component 0, no ghost cells). -/
def MultiFab.minus (dst src : MultiFab) : MultiFab :=
  { dst with vals := List.zipWith (fun a b => a - b) dst.vals src.vals }

/-- Modelled from the spec: the external in-place scaling primitive
(`MultiFab::mult` over component 0). -/
def MultiFab.mult (dst : MultiFab) (a : Rat) : MultiFab :=
  { dst with vals := dst.vals.map (fun x => a * x) }

/-- Modelled from the spec: the external set-value primitive
(`MultiFab::setVal`), writing the given value at every tracked point. -/
def MultiFab.setValAll (dst : MultiFab) (v : Rat) : MultiFab :=
  { dst with vals := List.replicate dst.vals.length v }

/-- Modelled from the spec: the external deep-copy primitive
(`MultiFab::Copy` over one component, no ghost cells); defined for operands of
identical partitioning, which every caller in the source requires. -/
def MultiFab.copyFrom (dst src : MultiFab) : MultiFab :=
  { dst with vals := src.vals }

/-- Modelled from the spec: the external linear-combination primitive
(`MultiFab::LinComb`, component 0, no ghost cells): dst = a*x + b*y. -/
def MultiFab.linCombInto (dst : MultiFab) (a : Rat) (x : MultiFab)
    (b : Rat) (y : MultiFab) : MultiFab :=
  { dst with vals := List.zipWith (fun xv yv => a * xv + b * yv) x.vals y.vals }

/-- Modelled from the spec: the external fused multiply-add primitive
(`MultiFab::Saxpy`, component 0, no ghost cells): dst = dst + a*x. -/
def MultiFab.saxpyInto (dst : MultiFab) (a : Rat) (x : MultiFab) : MultiFab :=
  { dst with vals := List.zipWith (fun d xv => d + a * xv) dst.vals x.vals }

/-- Model of an `amrex::iMultiFab` holding the ownership mask of one component:
per storage location of the layout, the integer weight (1 for the unique owner
of a mesh point, 0 for a duplicate). -/
structure iMultiFab where
  ba : BoxLayout
  wts : List Nat
deriving DecidableEq, Repr

/-- The state vector: `m_is_defined` flag and the per-level array of three
field `MultiFab`s (`amrex::Vector<std::array<std::unique_ptr<MultiFab>,3>>`,
empty until `Define` is called).  Field defaults mirror the C++ member
initializers reached by the defaulted constructor. -/
structure WarpXSolverVec where
  m_is_defined : Bool := false
  m_field_vec : List (Fin 3 → MultiFab) := []

/-- The static dot-mask state of the class: the `m_dot_mask_defined` flag and
the per-level array of three mask `iMultiFab`s.  It is static (process-wide)
in the source; here it is passed explicitly. -/
structure DotMaskState where
  m_dot_mask_defined : Bool := false
  m_dotMask : List (Fin 3 → iMultiFab) := []

namespace WarpXSolverVec

/-- `static constexpr int m_ncomp = 1`. -/
def m_ncomp : Nat := 1

/-- `static constexpr int m_num_amr_levels = 1`. -/
def m_num_amr_levels : Nat := 1

/-- `IsDefined()`. -/
def IsDefined (v : WarpXSolverVec) : Bool := v.m_is_defined

/-- `getVec()`. -/
def getVec (v : WarpXSolverVec) : List (Fin 3 → MultiFab) := v.m_field_vec

/-- `Define(const amrex::Vector<std::array<std::unique_ptr<MultiFab>,3>>&)`:
always-asserts that the vector is not yet defined, resizes the level vector to
the single hardcoded level, and fills each of the three slots with a fresh
array over the template slot's box array and distribution map, the template
slot's component count, and zero ghost cells; finally sets `m_is_defined`. -/
def DefineFromArrays (v : WarpXSolverVec) (a_solver_vec : List (Fin 3 → MultiFab)) :
    Except VecError WarpXSolverVec := do
  warpxAlwaysAssert (!v.IsDefined)
    ("WarpXSolverVec::Define() called on undefined WarpXSolverVec")
  let mf_model ← listAt a_solver_vec 0
  pure { v with
    m_field_vec := [fun n => MultiFab.make ((mf_model n).ba) ((mf_model n).nComp) 0],
    m_is_defined := true }

/-- `Define(const WarpXSolverVec&)`: always-asserts that the template vector is
defined, then delegates to the array-template form on its arrays. -/
def Define (v a_vec : WarpXSolverVec) : Except VecError WarpXSolverVec := do
  warpxAlwaysAssert (a_vec.IsDefined)
    ("WarpXSolverVec::Define(a_vec) called with undefined a_vec")
  v.DefineFromArrays a_vec.getVec

/-- `Copy(const amrex::Vector<std::array<std::unique_ptr<MultiFab>,3>>&)`:
debug-asserts definedness, then per level and component deep-copies one
component with no ghost cells. -/
def CopyFromArrays (dbg : Bool) (v : WarpXSolverVec)
    (a_solver_vec : List (Fin 3 → MultiFab)) : Except VecError WarpXSolverVec := do
  amrexAssert dbg (v.IsDefined)
    ("WarpXSolverVec::Copy() called on undefined WarpXSolverVec")
  let mine ← listAt v.m_field_vec 0
  let theirs ← listAt a_solver_vec 0
  pure { v with
    m_field_vec := v.m_field_vec.set 0 (fun n => (mine n).copyFrom (theirs n)) }

/-- `Copy(const WarpXSolverVec&)`: debug-asserts that the source is defined;
defines `this` from the source first when `this` is still undefined; then
copies the source's arrays. -/
def Copy (dbg : Bool) (v a_vec : WarpXSolverVec) : Except VecError WarpXSolverVec := do
  amrexAssert dbg (a_vec.IsDefined)
    ("WarpXSolverVec::Copy(a_vec) called with undefined a_vec")
  let v1 ← if v.IsDefined then pure v else v.Define a_vec
  v1.CopyFromArrays dbg a_vec.getVec

/-- Move assignment `operator=(WarpXSolverVec&&)` between two distinct objects
(`this != &a_vec`): the target steals the source's field vector (the moved-from
vector is left empty) and the target's `m_is_defined` is set to `true`
unconditionally; the source's own flag is not touched.  Returns the (target,
source) pair after the assignment. -/
def moveAssign (v a_vec : WarpXSolverVec) : WarpXSolverVec × WarpXSolverVec :=
  ({ v with m_field_vec := a_vec.m_field_vec, m_is_defined := true },
   { a_vec with m_field_vec := [] })

/-- Move assignment onto itself (`this == &a_vec`): the identity guard makes it
a no-op. -/
def moveAssignSelf (v : WarpXSolverVec) : WarpXSolverVec := v

/-- `operator+=`: no precondition check; per level and component, elementwise
add of the operand's array into this vector's array. -/
def plusEq (v a_vec : WarpXSolverVec) : Except VecError WarpXSolverVec := do
  let mine ← listAt v.m_field_vec 0
  let theirs ← listAt a_vec.getVec 0
  pure { v with m_field_vec := v.m_field_vec.set 0 (fun n => (mine n).plus (theirs n)) }

/-- `operator-=`: no precondition check; elementwise subtract. -/
def minusEq (v a_vec : WarpXSolverVec) : Except VecError WarpXSolverVec := do
  let mine ← listAt v.m_field_vec 0
  let theirs ← listAt a_vec.getVec 0
  pure { v with m_field_vec := v.m_field_vec.set 0 (fun n => (mine n).minus (theirs n)) }

/-- `linComb(a, X, b, Y)`: no precondition check; this = a*X + b*Y. -/
def linComb (v : WarpXSolverVec) (a : Rat) (X : WarpXSolverVec)
    (b : Rat) (Y : WarpXSolverVec) : Except VecError WarpXSolverVec := do
  let mine ← listAt v.m_field_vec 0
  let xl ← listAt X.getVec 0
  let yl ← listAt Y.getVec 0
  pure { v with
    m_field_vec := v.m_field_vec.set 0
      (fun n => (mine n).linCombInto a (xl n) b (yl n)) }

/-- `increment(X, a)`: no precondition check; this += a*X. -/
def increment (v : WarpXSolverVec) (X : WarpXSolverVec) (a : Rat) :
    Except VecError WarpXSolverVec := do
  let mine ← listAt v.m_field_vec 0
  let xl ← listAt X.getVec 0
  pure { v with
    m_field_vec := v.m_field_vec.set 0 (fun n => (mine n).saxpyInto a (xl n)) }

/-- `scale(a)`: no precondition check; every array is multiplied in place. -/
def scale (v : WarpXSolverVec) (a_a : Rat) : Except VecError WarpXSolverVec := do
  let mine ← listAt v.m_field_vec 0
  pure { v with m_field_vec := v.m_field_vec.set 0 (fun n => (mine n).mult a_a) }

/-- `setVal(a_val)`: debug-asserts definedness (with the source's literal
message text), then sets every array to the value. -/
def setVal (dbg : Bool) (v : WarpXSolverVec) (a_val : Rat) :
    Except VecError WarpXSolverVec := do
  amrexAssert dbg (v.IsDefined)
    ("WarpXSolverVec::ones() called on undefined WarpXSolverVec")
  let mine ← listAt v.m_field_vec 0
  pure { v with m_field_vec := v.m_field_vec.set 0 (fun n => (mine n).setValAll a_val) }

/-- `zero()`: `setVal(0.0)`. -/
def zero (dbg : Bool) (v : WarpXSolverVec) : Except VecError WarpXSolverVec :=
  v.setVal dbg 0

/-- `static clearDotMask()`: `m_dotMask.clear()` — releases the mask storage.
The `m_dot_mask_defined` flag is not touched by the source. -/
def clearDotMask (st : DotMaskState) : DotMaskState :=
  { st with m_dotMask := [] }

end WarpXSolverVec

/-- The masked pointwise product sum of one component: the sum over storage
locations of mask-weight times the product of the two stored values. -/
def maskedSum (wts : List Nat) (xs ys : List Rat) : Rat :=
  ((wts.zip (xs.zip ys)).map (fun t => (t.1 : Rat) * (t.2.1 * t.2.2))).sum

namespace WarpXSolverVec

/-- Modelled from the spec: the implementation of `WarpXSolverVec::SetDotMask`
(declared at header line 100) is not among the sources at hand.  Per the spec
(section 3 OwnershipMask, section 4.2 Build) it is idempotent — a second build
request with the built flag set is a no-op — and otherwise, for each level and
component, it obtains from the external geometry/domain-decomposition
collaborator the owner classification of the corresponding field array's
points (weight 1 at the unique owner of each mesh point, 0 at duplicates),
stores it aligned with that array's layout, and sets the built flag.  The
external classifier (geometry and periodicity included) is abstracted as the
`ownerMask` argument. -/
def SetDotMask (ownerMask : BoxLayout → List Nat) (st : DotMaskState)
    (v : WarpXSolverVec) : Except VecError DotMaskState := do
  if st.m_dot_mask_defined then
    pure st
  else do
    warpxAlwaysAssert (v.IsDefined)
      ("WarpXSolverVec::SetDotMask called from undefined instance")
    let mine ← listAt v.m_field_vec 0
    pure { m_dot_mask_defined := true,
           m_dotMask := [fun n => { ba := (mine n).ba, wts := ownerMask ((mine n).ba) }] }

/-- Modelled from the spec: the implementation of `WarpXSolverVec::dotProduct`
(declared at header line 101) is not among the sources at hand.  Per the spec
(section 4.1) it requires the ownership mask built and both vectors defined —
fatal diagnostics otherwise — and computes the globally reduced sum, over all
levels and components, of value(this) * value(other) * mask-weight; the
distributed reduction is the plain sum in this single-address-space model. -/
def dotProduct (st : DotMaskState) (v a_X : WarpXSolverVec) : Except VecError Rat := do
  warpxAlwaysAssert (st.m_dot_mask_defined)
    ("WarpXSolverVec::dotProduct called with m_dotMask not yet defined")
  warpxAlwaysAssert (v.IsDefined)
    ("WarpXSolverVec::dotProduct called on undefined WarpXSolverVec")
  warpxAlwaysAssert (a_X.IsDefined)
    ("WarpXSolverVec::dotProduct(a_X) called with undefined a_X")
  let mask ← listAt st.m_dotMask 0
  let mine ← listAt v.m_field_vec 0
  let theirs ← listAt a_X.m_field_vec 0
  pure (maskedSum ((mask 0).wts) ((mine 0).vals) ((theirs 0).vals)
      + maskedSum ((mask 1).wts) ((mine 1).vals) ((theirs 1).vals)
      + maskedSum ((mask 2).wts) ((mine 2).vals) ((theirs 2).vals))

/-- `norm2()` (header lines 218–222): the square root of the masked dot
product of the vector with itself. -/
noncomputable def norm2 (st : DotMaskState) (v : WarpXSolverVec) :
    Except VecError Real := do
  let norm ← dotProduct st v v
  pure (Real.sqrt ((norm : Rat) : Real))

end WarpXSolverVec

/-- A mask is a valid owner classification for a layout when it is aligned
with the layout, every weight is 0 or 1, and every mesh point occurring in the
layout has exactly one storage location carrying weight 1 (its unique owner;
every other occurrence is a duplicate of weight 0). -/
def ValidOwnerMask (pts wts : List Nat) : Prop :=
  wts.length = pts.length ∧ (∀ w ∈ wts, w ≤ 1) ∧
  ∀ p ∈ pts,
    (((pts.zip wts).filter (fun q => q.1 == p)).filter (fun q => q.2 == 1)).length = 1

instance (pts wts : List Nat) : Decidable (ValidOwnerMask pts wts) := by
  unfold ValidOwnerMask
  infer_instance

/-- The spec-side value of the dot product: the sum, over the three components,
of the products of the two per-point values over the unique (deduplicated)
mesh points of the layout. -/
def uniquePointSum (fv : Fin 3 → MultiFab) (V X : Fin 3 → Nat → Rat) : Rat :=
  (((fv 0).ba.pts.dedup.map (fun p => V 0 p * X 0 p)).sum)
  + (((fv 1).ba.pts.dedup.map (fun p => V 1 p * X 1 p)).sum)
  + (((fv 2).ba.pts.dedup.map (fun p => V 2 p * X 2 p)).sum)

/-- Whether an operation outcome is an abort with a diagnostic message that is
active in every build (the behaviour the spec promises for precondition
violations). -/
def isDiagnosedAbort {α : Type} : Except VecError α → Bool
  | Except.error (VecError.fatalAssert _) => true
  | _ => false

/-- The definedness invariant: a vector reporting `IsDefined` owns storage for
every level slot. -/
def WarpXSolverVec.DefinedOwnsStorage (v : WarpXSolverVec) : Prop :=
  v.m_is_defined = true → v.m_field_vec.length = WarpXSolverVec.m_num_amr_levels

/-- Per-storage-location weighted sum of the second components of the pairs
whose first component is `p` (the total mask weight a mesh point receives). -/
def wsum (l : List (Nat × Nat)) (p : Nat) : Nat :=
  ((l.filter (fun q => q.1 == p)).map Prod.snd).sum

/-! Helper lemmas. -/

theorem listAt_cons_zero {α : Type} (a : α) (l : List α) :
    listAt (a :: l) 0 = Except.ok a := rfl

theorem listAt_nil {α : Type} : listAt ([] : List α) 0 = Except.error VecError.outOfBounds := rfl

theorem wsum_cons (q : Nat × Nat) (t : List (Nat × Nat)) (p : Nat) :
    wsum (q :: t) p = (if q.1 = p then q.2 else 0) + wsum t p := by
  by_cases h : q.1 = p <;> simp [wsum, List.filter_cons, h]

theorem wsum_eq_zero_of_not_mem (l : List (Nat × Nat)) (p : Nat)
    (h : p ∉ l.map Prod.fst) : wsum l p = 0 := by
  induction l with
  | nil => rfl
  | cons q t ih =>
    rw [List.map_cons, List.mem_cons] at h
    push_neg at h
    rw [wsum_cons, if_neg (Ne.symm h.1), ih h.2]

theorem sum_map_add_single (l : List Nat) (p : Nat) (c : Rat) (F G : Nat → Rat)
    (hnd : l.Nodup) (hp : p ∈ l)
    (hne : ∀ q ∈ l, q ≠ p → F q = G q) (hfp : F p = c + G p) :
    (l.map F).sum = c + (l.map G).sum := by
  induction l with
  | nil => cases hp
  | cons a t ih =>
    rw [List.nodup_cons] at hnd
    rcases List.mem_cons.mp hp with h | h
    · subst h
      have htcong : t.map F = t.map G := by
        apply List.map_congr_left
        intro q hq
        exact hne q (List.mem_cons_of_mem _ hq) (fun hqp => hnd.1 (hqp ▸ hq))
      rw [List.map_cons, List.map_cons, List.sum_cons, List.sum_cons, htcong, hfp]
      ring
    · have hap : a ≠ p := fun hap => hnd.1 (hap ▸ h)
      have hfa : F a = G a := hne a (List.mem_cons_self _ _) hap
      have hrec := ih hnd.2 h (fun q hq hqp => hne q (List.mem_cons_of_mem _ hq) hqp)
      rw [List.map_cons, List.map_cons, List.sum_cons, List.sum_cons, hfa, hrec]
      ring

theorem sum_map_mul_group (l : List (Nat × Nat)) (W : Nat → Rat) :
    (l.map (fun q => (q.2 : Rat) * W q.1)).sum
      = ((l.map Prod.fst).dedup.map (fun p => (wsum l p : Rat) * W p)).sum := by
  induction l with
  | nil => simp
  | cons q t ih =>
    by_cases hmem : q.1 ∈ t.map Prod.fst
    · have hd : ((q :: t).map Prod.fst).dedup = (t.map Prod.fst).dedup := by
        rw [List.map_cons, List.dedup_cons_of_mem hmem]
      rw [List.map_cons, List.sum_cons, ih, hd]
      symm
      refine sum_map_add_single _ q.1 ((q.2 : Rat) * W q.1) _ _
        (List.nodup_dedup _) (List.mem_dedup.mpr hmem) ?_ ?_
      · intro r _ hrq
        rw [wsum_cons, if_neg (fun h => hrq h.symm)]
        simp
      · rw [wsum_cons, if_pos rfl]
        push_cast
        ring
    · have hd : ((q :: t).map Prod.fst).dedup = q.1 :: (t.map Prod.fst).dedup := by
        rw [List.map_cons, List.dedup_cons_of_not_mem hmem]
      rw [List.map_cons, List.sum_cons, ih, hd, List.map_cons, List.sum_cons]
      have h1 : wsum (q :: t) q.1 = q.2 := by
        rw [wsum_cons, if_pos rfl, wsum_eq_zero_of_not_mem t q.1 hmem]
        exact Nat.add_zero _
      have h2 : (t.map Prod.fst).dedup.map (fun p => (wsum (q :: t) p : Rat) * W p)
          = (t.map Prod.fst).dedup.map (fun p => (wsum t p : Rat) * W p) := by
        apply List.map_congr_left
        intro r hr
        have hrq : q.1 ≠ r := fun h => hmem (h ▸ List.mem_dedup.mp hr)
        rw [wsum_cons, if_neg hrq]
        simp
      rw [h1, h2]

theorem maskedSum_map (pts : List Nat) (wts : List Nat) (V X : Nat → Rat) :
    maskedSum wts (pts.map V) (pts.map X)
      = ((pts.zip wts).map (fun q => (q.2 : Rat) * (V q.1 * X q.1))).sum := by
  induction pts generalizing wts with
  | nil => cases wts <;> simp [maskedSum]
  | cons p ps ih =>
    cases wts with
    | nil => simp [maskedSum]
    | cons w ws =>
      have h2 := ih ws
      simp only [maskedSum] at h2 ⊢
      simp only [List.map_cons, List.zip_cons_cons, List.sum_cons, h2]

theorem sum_le_one_eq_count_ones (ns : List Nat) (h : ∀ x ∈ ns, x ≤ 1) :
    ns.sum = (ns.filter (fun x => x == 1)).length := by
  induction ns with
  | nil => rfl
  | cons a t ih =>
    have ha := h a (List.mem_cons_self _ _)
    have ht : ∀ x ∈ t, x ≤ 1 := fun x hx => h x (List.mem_cons_of_mem _ hx)
    rcases Nat.le_one_iff_eq_zero_or_eq_one.mp ha with h0 | h1
    · subst h0
      simp [List.filter_cons, ih ht]
    · subst h1
      simp [List.filter_cons, ih ht, Nat.add_comm]

theorem length_filter_map_snd (l : List (Nat × Nat)) :
    ((l.map Prod.snd).filter (fun x => x == 1)).length
      = (l.filter (fun q => q.2 == 1)).length := by
  induction l with
  | nil => rfl
  | cons q t ih =>
    by_cases h : q.2 = 1 <;> simp [List.filter_cons, h, ih]

theorem wsum_eq_one_of_valid (pts wts : List Nat) (hv : ValidOwnerMask pts wts)
    (p : Nat) (hp : p ∈ pts) : wsum (pts.zip wts) p = 1 := by
  obtain ⟨hlen, hle, huniq⟩ := hv
  have hmem : ∀ x ∈ ((pts.zip wts).filter (fun q => q.1 == p)).map Prod.snd, x ≤ 1 := by
    intro x hx
    obtain ⟨q, hq, hqx⟩ := List.mem_map.mp hx
    exact hqx ▸ hle _ (List.of_mem_zip (List.mem_of_mem_filter hq)).2
  unfold wsum
  rw [sum_le_one_eq_count_ones _ hmem, length_filter_map_snd]
  exact huniq p hp

theorem maskedSum_eq_dedup_sum (pts wts : List Nat) (V X : Nat → Rat)
    (hv : ValidOwnerMask pts wts) :
    maskedSum wts (pts.map V) (pts.map X)
      = (pts.dedup.map (fun p => V p * X p)).sum := by
  rw [maskedSum_map]
  have hg := sum_map_mul_group (pts.zip wts) (fun a => V a * X a)
  rw [hg, List.map_fst_zip _ _ (le_of_eq hv.1.symm)]
  have hcong : ∀ p ∈ pts.dedup,
      ((wsum (pts.zip wts) p : Rat) * (V p * X p)) = V p * X p := by
    intro p hp
    rw [wsum_eq_one_of_valid pts wts hv p (List.mem_dedup.mp hp)]
    simp
  rw [List.map_congr_left hcong]

theorem except_ok_bind {α β : Type} (a : α) (f : α → Except VecError β) :
    (Except.ok a >>= f) = f a := rfl

theorem dotProduct_ok_uniquePointSum
    (st : DotMaskState) (v x : WarpXSolverVec)
    (fv fx : Fin 3 → MultiFab) (mk : Fin 3 → iMultiFab)
    (V X : Fin 3 → Nat → Rat)
    (hst : st.m_dot_mask_defined = true)
    (hm : st.m_dotMask = [mk])
    (hvd : v.m_is_defined = true) (hv : v.m_field_vec = [fv])
    (hxd : x.m_is_defined = true) (hx : x.m_field_vec = [fx])
    (hmask : ∀ n : Fin 3, ValidOwnerMask ((fv n).ba.pts) ((mk n).wts))
    (hvvals : ∀ n : Fin 3, (fv n).vals = ((fv n).ba.pts).map (V n))
    (hxvals : ∀ n : Fin 3, (fx n).vals = ((fv n).ba.pts).map (X n)) :
    WarpXSolverVec.dotProduct st v x = Except.ok (uniquePointSum fv V X) := by
  unfold WarpXSolverVec.dotProduct
  simp only [WarpXSolverVec.IsDefined, hst, hvd, hxd, hm, hv, hx, warpxAlwaysAssert,
    if_true, listAt_cons_zero, except_ok_bind]
  rw [hvvals 0, hvvals 1, hvvals 2, hxvals 0, hxvals 1, hxvals 2,
    maskedSum_eq_dedup_sum _ _ _ _ (hmask 0),
    maskedSum_eq_dedup_sum _ _ _ _ (hmask 1),
    maskedSum_eq_dedup_sum _ _ _ _ (hmask 2)]
  rfl

theorem list_sum_eq_zero_iff_of_nonneg (l : List Rat) (h : ∀ x ∈ l, 0 ≤ x) :
    l.sum = 0 ↔ ∀ x ∈ l, x = 0 := by
  induction l with
  | nil => simp
  | cons a t ih =>
    have ha := h a (List.mem_cons_self _ _)
    have ht : ∀ x ∈ t, 0 ≤ x := fun x hx => h x (List.mem_cons_of_mem _ hx)
    have hts : 0 ≤ t.sum := List.sum_nonneg ht
    rw [List.sum_cons]
    constructor
    · intro h0
      have ha0 : a = 0 := le_antisymm (by linarith) ha
      have hts0 : t.sum = 0 := by linarith
      intro x hx
      rcases List.mem_cons.mp hx with hxa | hxt
      · exact hxa ▸ ha0
      · exact (ih ht).mp hts0 x hxt
    · intro hall
      rw [hall a (List.mem_cons_self _ _), zero_add]
      exact (ih ht).mpr (fun x hx => hall x (List.mem_cons_of_mem _ hx))

theorem uniquePointSum_comp_nonneg (fv : Fin 3 → MultiFab) (V : Fin 3 → Nat → Rat)
    (n : Fin 3) : 0 ≤ ((fv n).ba.pts.dedup.map (fun p => V n p * V n p)).sum := by
  apply List.sum_nonneg
  intro x hx
  obtain ⟨p, hp, hpx⟩ := List.mem_map.mp hx
  exact hpx ▸ mul_self_nonneg _

theorem uniquePointSum_self_nonneg (fv : Fin 3 → MultiFab) (V : Fin 3 → Nat → Rat) :
    0 ≤ uniquePointSum fv V V := by
  have h0 := uniquePointSum_comp_nonneg fv V 0
  have h1 := uniquePointSum_comp_nonneg fv V 1
  have h2 := uniquePointSum_comp_nonneg fv V 2
  unfold uniquePointSum
  linarith

theorem uniquePointSum_self_eq_zero_iff (fv : Fin 3 → MultiFab) (V : Fin 3 → Nat → Rat) :
    uniquePointSum fv V V = 0 ↔ ∀ n : Fin 3, ∀ p ∈ (fv n).ba.pts, V n p = 0 := by
  have hn := uniquePointSum_comp_nonneg fv V
  have hterm : ∀ n : Fin 3, ∀ x ∈ (fv n).ba.pts.dedup.map (fun p => V n p * V n p), 0 ≤ x := by
    intro n x hx
    obtain ⟨p, hp, hpx⟩ := List.mem_map.mp hx
    exact hpx ▸ mul_self_nonneg _
  constructor
  · intro h0 n p hp
    have g0 := hn 0
    have g1 := hn 1
    have g2 := hn 2
    unfold uniquePointSum at h0
    have hS0 : ((fv 0).ba.pts.dedup.map (fun p => V 0 p * V 0 p)).sum = 0 := by linarith
    have hS1 : ((fv 1).ba.pts.dedup.map (fun p => V 1 p * V 1 p)).sum = 0 := by linarith
    have hS2 : ((fv 2).ba.pts.dedup.map (fun p => V 2 p * V 2 p)).sum = 0 := by linarith
    have hS : ((fv n).ba.pts.dedup.map (fun p => V n p * V n p)).sum = 0 := by
      fin_cases n
      · exact hS0
      · exact hS1
      · exact hS2
    have hmem : V n p * V n p ∈ (fv n).ba.pts.dedup.map (fun p => V n p * V n p) :=
      List.mem_map.mpr ⟨p, List.mem_dedup.mpr hp, rfl⟩
    exact mul_self_eq_zero.mp
      ((list_sum_eq_zero_iff_of_nonneg _ (hterm n)).mp hS _ hmem)
  · intro hall
    have hS : ∀ n : Fin 3, ((fv n).ba.pts.dedup.map (fun p => V n p * V n p)).sum = 0 := by
      intro n
      apply (list_sum_eq_zero_iff_of_nonneg _ (hterm n)).mpr
      intro x hx
      obtain ⟨p, hp, hpx⟩ := List.mem_map.mp hx
      rw [← hpx, hall n p (List.mem_dedup.mp hp), mul_zero]
    unfold uniquePointSum
    rw [hS 0, hS 1, hS 2]
    norm_num

/-- Concrete material for the closed instances below: a layout of four storage
locations in which mesh point 5 is stored twice (a boundary point shared by two
overlapping patches), carrying the same value 5 on both copies; the owner mask
marks the second copy as the duplicate. -/
def cBa : BoxLayout := { pts := [0, 5, 5, 2], dm := 0 }

/-- Concrete field array over `cBa`, holding value p at mesh point p. -/
def cMf : MultiFab := { ba := cBa, nComp := 1, nGrow := 0, vals := [0, 5, 5, 2] }

/-- Concrete owner mask over `cBa`: the duplicated point is counted once. -/
def cMask : iMultiFab := { ba := cBa, wts := [1, 1, 0, 1] }

/-- Concrete defined solver vector with `cMf` in all three components. -/
def cVec : WarpXSolverVec := { m_is_defined := true, m_field_vec := [fun _ => cMf] }

/-- Concrete built dot-mask state matching `cVec`. -/
def cSt : DotMaskState := { m_dot_mask_defined := true, m_dotMask := [fun _ => cMask] }

/-- Concrete per-point value function: value p at mesh point p. -/
def cV : Fin 3 → Nat → Rat := fun _ p => (p : Rat)

/-- Concrete never-defined solver vector (the default-constructed state). -/
def cUndef : WarpXSolverVec := {}

/-- Concrete template slot whose arrays carry two components, for exercising
`Define`'s component-count behaviour. -/
def cTempl2 : Fin 3 → MultiFab :=
  fun _ => { ba := { pts := [0, 1], dm := 0 }, nComp := 2, nGrow := 0, vals := [3, 4] }

theorem except_error_bind {α β : Type} (e : VecError) (f : α → Except VecError β) :
    ((Except.error e : Except VecError α) >>= f) = Except.error e := rfl

theorem except_pure_eq_ok {α : Type} (a : α) :
    (pure a : Except VecError α) = Except.ok a := rfl

/-- Claim C1: for every pair of defined state vectors over the same geometry
with the ownership mask built (a valid owner classification aligned with the
layout), `dotProduct(this, other)` equals the globally reduced sum, over all
levels, components and mesh points, of value(this) * value(other) * mask-weight,
the weight being 0 at duplicate storage locations and 1 at owned ones — that
is, the sum over the unique mesh points only; a boundary point duplicated on
two overlapping patches with the same value on both hence contributes to the
self dot product exactly once. -/
theorem dotProduct_counts_unique_points_once
    (st : DotMaskState) (v x : WarpXSolverVec)
    (fv fx : Fin 3 → MultiFab) (mk : Fin 3 → iMultiFab)
    (V X : Fin 3 → Nat → Rat)
    (hst : st.m_dot_mask_defined = true)
    (hm : st.m_dotMask = [mk])
    (hvd : v.m_is_defined = true) (hv : v.m_field_vec = [fv])
    (hxd : x.m_is_defined = true) (hx : x.m_field_vec = [fx])
    (hmask : ∀ n : Fin 3, ValidOwnerMask ((fv n).ba.pts) ((mk n).wts))
    (hvvals : ∀ n : Fin 3, (fv n).vals = ((fv n).ba.pts).map (V n))
    (hxvals : ∀ n : Fin 3, (fx n).vals = ((fv n).ba.pts).map (X n)) :
    WarpXSolverVec.dotProduct st v x = Except.ok (uniquePointSum fv V X) :=
  dotProduct_ok_uniquePointSum st v x fv fx mk V X hst hm hvd hv hxd hx
    hmask hvvals hxvals

/-- Witness for C1 at a concrete overlapping-patch configuration: the shared
boundary point (id 5, value 5, stored twice) is counted once per component, so
the self dot product is 3 * (0*0 + 5*5 + 2*2) = 87, not 3 * (25 + 25 + 4). -/
theorem dotProduct_counts_unique_points_once_witness :
    WarpXSolverVec.dotProduct cSt cVec cVec
        = Except.ok (uniquePointSum (fun _ => cMf) cV cV)
    ∧ uniquePointSum (fun _ => cMf) cV cV = 87 :=
  ⟨dotProduct_counts_unique_points_once cSt cVec cVec (fun _ => cMf) (fun _ => cMf)
      (fun _ => cMask) cV cV rfl rfl rfl rfl rfl rfl (by decide) (by decide) (by decide),
   by
    have hd : ([0, 5, 5, 2] : List Nat).dedup = [0, 5, 2] := by decide
    simp [uniquePointSum, cMf, cBa, cV, hd]
    norm_num⟩

/-- Claim C6: calling `Define` on an already-defined vector is a fatal
diagnosed error, `Define(other)` with `other` undefined is likewise fatal, and
with `other` defined `Define(other)` delegates to the array-template form on
`other`'s arrays. -/
theorem Define_checks_preconditions_and_delegates :
    (∀ v a_vec : WarpXSolverVec, a_vec.m_is_defined = false →
      v.Define a_vec = Except.error (VecError.fatalAssert
        ("WarpXSolverVec::Define(a_vec) called with undefined a_vec")))
    ∧ (∀ (v : WarpXSolverVec) (tl : List (Fin 3 → MultiFab)), v.m_is_defined = true →
      v.DefineFromArrays tl = Except.error (VecError.fatalAssert
        ("WarpXSolverVec::Define() called on undefined WarpXSolverVec")))
    ∧ (∀ v a_vec : WarpXSolverVec, a_vec.m_is_defined = true →
      v.Define a_vec = v.DefineFromArrays a_vec.getVec) := by
  refine ⟨?_, ?_, ?_⟩
  · intro v a h
    simp [WarpXSolverVec.Define, WarpXSolverVec.IsDefined, h, warpxAlwaysAssert,
      except_error_bind]
  · intro v tl h
    simp [WarpXSolverVec.DefineFromArrays, WarpXSolverVec.IsDefined, h,
      warpxAlwaysAssert, except_error_bind]
  · intro v a h
    simp [WarpXSolverVec.Define, WarpXSolverVec.IsDefined, h, warpxAlwaysAssert,
      except_ok_bind]

/-- Witness for C6 at concrete vectors: redefinition of the defined `cVec` and
definition from the undefined `cUndef` both abort with diagnostics, and
definition from the defined `cVec` delegates to the array form. -/
theorem Define_checks_preconditions_and_delegates_witness :
    (cVec.Define cUndef = Except.error (VecError.fatalAssert
        ("WarpXSolverVec::Define(a_vec) called with undefined a_vec")))
    ∧ (cVec.DefineFromArrays [] = Except.error (VecError.fatalAssert
        ("WarpXSolverVec::Define() called on undefined WarpXSolverVec")))
    ∧ (cUndef.Define cVec = cUndef.DefineFromArrays cVec.getVec) :=
  ⟨Define_checks_preconditions_and_delegates.1 cVec cUndef rfl,
   Define_checks_preconditions_and_delegates.2.1 cVec [] rfl,
   Define_checks_preconditions_and_delegates.2.2 cUndef cVec rfl⟩

/-- Counterexample to C2 as stated: `scale` invoked on an undefined vector does
not abort with a diagnostic message — the source has no definedness check
there, and the operation runs into an unchecked out-of-bounds access on the
empty level vector. -/
theorem scale_on_undefined_not_diagnosed :
    cUndef.IsDefined = false
    ∧ cUndef.scale 2 = Except.error VecError.outOfBounds
    ∧ isDiagnosedAbort (cUndef.scale 2) = false :=
  ⟨rfl, rfl, rfl⟩

/-- Counterexample to C3 as stated: `clearDotMask` releases the mask storage
but does not reset the built flag to false. -/
theorem clearDotMask_leaves_flag_set :
    (WarpXSolverVec.clearDotMask cSt).m_dot_mask_defined = true
    ∧ (WarpXSolverVec.clearDotMask cSt).m_dotMask = [] :=
  ⟨rfl, rfl⟩

/-- Counterexample to C4 as stated: `Define` from a template whose arrays carry
two components allocates two-component storage, not one scalar component — the
source passes the template's component count through. -/
theorem define_keeps_template_component_count :
    Except.map (fun w => w.m_field_vec.map (fun g => (g 0).nComp))
        ((({} : WarpXSolverVec).DefineFromArrays [cTempl2]))
      = Except.ok [2]
    ∧ (2 : Nat) ≠ 1 :=
  ⟨rfl, by decide⟩

/-- Claim C2 as amended: on an undefined (default-constructed) vector,
`Define` and the spec-modelled `dotProduct`/`norm2` abort with an always-active
diagnostic (for `norm2` once the mask is built); `Copy` checks definedness only
by debug-build assertions — in a release build, `Copy` on an undefined `this`
with a defined source does not abort at all but defines `this` from the source
and succeeds, `Copy` with an undefined source aborts through `Define`'s
always-active diagnostic when `this` is also undefined and hits the unchecked
out-of-bounds access on the source's empty level vector when `this` is
defined, and in a debug build the `Copy` assertion itself fires; `setVal` and
`zero` check definedness only by the debug-build assertion and in a release
build hit the unchecked out-of-bounds access on the empty level vector;
`operator+=`, `operator-=`, `linComb`, `increment` and `scale` perform no
definedness check at all and hit the unchecked out-of-bounds access in every
build, with no diagnostic. -/
theorem undefined_vector_op_outcomes
    (v : WarpXSolverVec) (hd : v.m_is_defined = false) (he : v.m_field_vec = [])
    (w y : WarpXSolverVec) (a b q : Rat)
    (u : WarpXSolverVec) (hud : u.m_is_defined = false) (hue : u.m_field_vec = [])
    (s : WarpXSolverVec) (fs : Fin 3 → MultiFab)
    (hsd : s.m_is_defined = true) (hs : s.m_field_vec = [fs])
    (st : DotMaskState) (hst : st.m_dot_mask_defined = true) :
    v.plusEq w = Except.error VecError.outOfBounds
    ∧ v.minusEq w = Except.error VecError.outOfBounds
    ∧ v.linComb a w b y = Except.error VecError.outOfBounds
    ∧ v.increment w a = Except.error VecError.outOfBounds
    ∧ v.scale a = Except.error VecError.outOfBounds
    ∧ v.setVal true q = Except.error (VecError.debugAssert
        ("WarpXSolverVec::ones() called on undefined WarpXSolverVec"))
    ∧ v.setVal false q = Except.error VecError.outOfBounds
    ∧ v.zero true = Except.error (VecError.debugAssert
        ("WarpXSolverVec::ones() called on undefined WarpXSolverVec"))
    ∧ v.zero false = Except.error VecError.outOfBounds
    ∧ (∃ r, v.Copy false s = Except.ok r ∧ r.m_is_defined = true)
    ∧ v.Copy false u = Except.error (VecError.fatalAssert
        ("WarpXSolverVec::Define(a_vec) called with undefined a_vec"))
    ∧ v.Copy true u = Except.error (VecError.debugAssert
        ("WarpXSolverVec::Copy(a_vec) called with undefined a_vec"))
    ∧ s.Copy false u = Except.error VecError.outOfBounds
    ∧ WarpXSolverVec.dotProduct st v w = Except.error (VecError.fatalAssert
        ("WarpXSolverVec::dotProduct called on undefined WarpXSolverVec"))
    ∧ WarpXSolverVec.norm2 st v = Except.error (VecError.fatalAssert
        ("WarpXSolverVec::dotProduct called on undefined WarpXSolverVec")) := by
  have hCopyOk : v.Copy false s = Except.ok
      { m_is_defined := true,
        m_field_vec := [fun n => { ba := (fs n).ba, nComp := (fs n).nComp,
                                   nGrow := 0, vals := (fs n).vals }] } := by
    simp [WarpXSolverVec.Copy, WarpXSolverVec.Define, WarpXSolverVec.DefineFromArrays,
      WarpXSolverVec.CopyFromArrays, WarpXSolverVec.IsDefined, WarpXSolverVec.getVec,
      hd, hsd, hs, amrexAssert, warpxAlwaysAssert, listAt_cons_zero, except_ok_bind,
      except_pure_eq_ok, List.set_cons_zero, MultiFab.make, MultiFab.copyFrom]
  refine ⟨?_, ?_, ?_, ?_, ?_, ?_, ?_, ?_, ?_, ⟨_, hCopyOk, rfl⟩, ?_, ?_, ?_, ?_, ?_⟩ <;>
    simp [WarpXSolverVec.plusEq, WarpXSolverVec.minusEq, WarpXSolverVec.linComb,
      WarpXSolverVec.increment, WarpXSolverVec.scale, WarpXSolverVec.setVal,
      WarpXSolverVec.zero, WarpXSolverVec.dotProduct, WarpXSolverVec.norm2,
      WarpXSolverVec.Copy, WarpXSolverVec.Define, WarpXSolverVec.DefineFromArrays,
      WarpXSolverVec.CopyFromArrays, WarpXSolverVec.IsDefined,
      WarpXSolverVec.getVec, hd, he, hud, hue, hsd, hs, hst, amrexAssert,
      warpxAlwaysAssert, listAt_nil, listAt_cons_zero, except_error_bind,
      except_ok_bind, except_pure_eq_ok]

/-- Witness for the amended C2 at concrete states: the arithmetic operations
on the undefined `cUndef` end in an undiagnosed out-of-bounds access, the
debug-only asserts fire only with `dbg = true`, release-build `Copy` succeeds
on undefined `this` with the defined source `cVec` but fails through `Define`'s
diagnostic or an out-of-bounds access with the undefined source, and the
spec-modelled dot product and `norm2` abort with diagnostics. -/
theorem undefined_vector_op_outcomes_witness :
    cUndef.plusEq cVec = Except.error VecError.outOfBounds
    ∧ cUndef.minusEq cVec = Except.error VecError.outOfBounds
    ∧ cUndef.linComb 2 cVec 3 cVec = Except.error VecError.outOfBounds
    ∧ cUndef.increment cVec 2 = Except.error VecError.outOfBounds
    ∧ cUndef.scale 2 = Except.error VecError.outOfBounds
    ∧ cUndef.setVal true 4 = Except.error (VecError.debugAssert
        ("WarpXSolverVec::ones() called on undefined WarpXSolverVec"))
    ∧ cUndef.setVal false 4 = Except.error VecError.outOfBounds
    ∧ cUndef.zero true = Except.error (VecError.debugAssert
        ("WarpXSolverVec::ones() called on undefined WarpXSolverVec"))
    ∧ cUndef.zero false = Except.error VecError.outOfBounds
    ∧ (∃ r, cUndef.Copy false cVec = Except.ok r ∧ r.m_is_defined = true)
    ∧ cUndef.Copy false cUndef = Except.error (VecError.fatalAssert
        ("WarpXSolverVec::Define(a_vec) called with undefined a_vec"))
    ∧ cUndef.Copy true cUndef = Except.error (VecError.debugAssert
        ("WarpXSolverVec::Copy(a_vec) called with undefined a_vec"))
    ∧ cVec.Copy false cUndef = Except.error VecError.outOfBounds
    ∧ WarpXSolverVec.dotProduct cSt cUndef cVec = Except.error (VecError.fatalAssert
        ("WarpXSolverVec::dotProduct called on undefined WarpXSolverVec"))
    ∧ WarpXSolverVec.norm2 cSt cUndef = Except.error (VecError.fatalAssert
        ("WarpXSolverVec::dotProduct called on undefined WarpXSolverVec")) :=
  undefined_vector_op_outcomes cUndef rfl rfl cVec cVec 2 3 4 cUndef rfl rfl
    cVec (fun _ => cMf) rfl rfl cSt rfl

/-- Claim C3 as amended: `clearDotMask` releases all mask storage but leaves
the built flag set; consequently a later build request is a no-op rather than
a rebuild, and a dot product attempted after clearing without rebuilding is
not detected as a precondition violation — it passes the built-flag check and
fails on the unchecked out-of-bounds access to the cleared mask storage. -/
theorem clearDotMask_releases_storage_keeps_flag
    (st : DotMaskState) (hst : st.m_dot_mask_defined = true)
    (f : BoxLayout → List Nat) (v x : WarpXSolverVec)
    (hvd : v.m_is_defined = true) (hxd : x.m_is_defined = true) :
    (WarpXSolverVec.clearDotMask st).m_dotMask = []
    ∧ (WarpXSolverVec.clearDotMask st).m_dot_mask_defined = true
    ∧ WarpXSolverVec.SetDotMask f (WarpXSolverVec.clearDotMask st) v
        = Except.ok (WarpXSolverVec.clearDotMask st)
    ∧ WarpXSolverVec.dotProduct (WarpXSolverVec.clearDotMask st) v x
        = Except.error VecError.outOfBounds := by
  refine ⟨rfl, by simpa [WarpXSolverVec.clearDotMask] using hst, ?_, ?_⟩
  · simp [WarpXSolverVec.SetDotMask, WarpXSolverVec.clearDotMask, hst,
      except_pure_eq_ok]
  · simp [WarpXSolverVec.dotProduct, WarpXSolverVec.clearDotMask,
      WarpXSolverVec.IsDefined, hst, hvd, hxd, warpxAlwaysAssert, except_ok_bind,
      listAt_nil, except_error_bind]

/-- Witness for the amended C3 at concrete states built from `cSt`/`cVec`. -/
theorem clearDotMask_releases_storage_keeps_flag_witness :
    (WarpXSolverVec.clearDotMask cSt).m_dotMask = []
    ∧ (WarpXSolverVec.clearDotMask cSt).m_dot_mask_defined = true
    ∧ WarpXSolverVec.SetDotMask (fun _ => []) (WarpXSolverVec.clearDotMask cSt) cVec
        = Except.ok (WarpXSolverVec.clearDotMask cSt)
    ∧ WarpXSolverVec.dotProduct (WarpXSolverVec.clearDotMask cSt) cVec cVec
        = Except.error VecError.outOfBounds :=
  clearDotMask_releases_storage_keeps_flag cSt rfl (fun _ => []) cVec cVec rfl rfl

/-- Claim C4 as amended: `Define` on a not-yet-defined vector, given a template
with a slot for the hardcoded level, allocates for every (level, component)
slot a storage array with the template slot's box layout and distribution, a
zero-filled halo-free layout (no ghost cells, values initialized to zero), and
the template array's component count (one scalar component exactly when the
template arrays are scalar); afterwards the vector reports defined = true. -/
theorem Define_allocates_from_template
    (v : WarpXSolverVec) (tm : Fin 3 → MultiFab) (rest : List (Fin 3 → MultiFab))
    (hd : v.m_is_defined = false) :
    ∃ g : Fin 3 → MultiFab,
      v.DefineFromArrays (tm :: rest)
          = Except.ok { v with m_is_defined := true, m_field_vec := [g] }
      ∧ ∀ n : Fin 3, (g n).ba = (tm n).ba ∧ (g n).nComp = (tm n).nComp
          ∧ (g n).nGrow = 0
          ∧ (g n).vals = List.replicate ((tm n).ba.pts.length) 0 := by
  refine ⟨fun n => MultiFab.make ((tm n).ba) ((tm n).nComp) 0, ?_, ?_⟩
  · simp [WarpXSolverVec.DefineFromArrays, WarpXSolverVec.IsDefined, hd,
      warpxAlwaysAssert, listAt_cons_zero, except_ok_bind]
  · intro n
    exact ⟨rfl, rfl, rfl, rfl⟩

/-- Witness for the amended C4 at a concrete two-component template. -/
theorem Define_allocates_from_template_witness :
    ∃ g : Fin 3 → MultiFab,
      cUndef.DefineFromArrays (cTempl2 :: [])
          = Except.ok { cUndef with m_is_defined := true, m_field_vec := [g] }
      ∧ ∀ n : Fin 3, (g n).ba = (cTempl2 n).ba ∧ (g n).nComp = (cTempl2 n).nComp
          ∧ (g n).nGrow = 0
          ∧ (g n).vals = List.replicate ((cTempl2 n).ba.pts.length) 0 :=
  Define_allocates_from_template cUndef cTempl2 [] rfl

/-- Claim C5: `Copy(source)` with `source` defined: when `this` is undefined it
is first defined from the source's layout (fresh halo-free storage), and in
either case every (level, component) array of the source is then deep-copied
value-for-value into `this` over the single owned component; afterwards `this`
is defined and holds exactly the source's values at every owned mesh point, in
storage of its own. -/
theorem Copy_deep_copies_values
    (dbg : Bool) (s : WarpXSolverVec) (fs : Fin 3 → MultiFab)
    (hsd : s.m_is_defined = true) (hs : s.m_field_vec = [fs]) :
    (∀ v : WarpXSolverVec, v.m_is_defined = false →
      v.Copy dbg s = Except.ok
        { m_is_defined := true,
          m_field_vec := [fun n => { ba := (fs n).ba, nComp := (fs n).nComp,
                                     nGrow := 0, vals := (fs n).vals }] })
    ∧ (∀ (v : WarpXSolverVec) (fd : Fin 3 → MultiFab), v.m_is_defined = true →
      v.m_field_vec = [fd] → (∀ n : Fin 3, (fd n).ba = (fs n).ba) →
      v.Copy dbg s = Except.ok
        { v with m_field_vec := [fun n => { fd n with vals := (fs n).vals }] }) := by
  constructor
  · intro v hvd
    simp [WarpXSolverVec.Copy, WarpXSolverVec.Define, WarpXSolverVec.DefineFromArrays,
      WarpXSolverVec.CopyFromArrays, WarpXSolverVec.IsDefined, WarpXSolverVec.getVec,
      hvd, hsd, hs, amrexAssert, warpxAlwaysAssert, listAt_cons_zero, except_ok_bind,
      except_pure_eq_ok, List.set_cons_zero, MultiFab.make, MultiFab.copyFrom]
  · intro v fd hvd hv hba
    simp [WarpXSolverVec.Copy, WarpXSolverVec.CopyFromArrays, WarpXSolverVec.IsDefined,
      WarpXSolverVec.getVec, hvd, hsd, hs, hv, amrexAssert, warpxAlwaysAssert,
      listAt_cons_zero, except_ok_bind, except_pure_eq_ok, List.set_cons_zero,
      MultiFab.copyFrom]

/-- Witness for C5 at concrete vectors: copying the defined `cVec` into the
undefined `cUndef` defines it and reproduces the source's values. -/
theorem Copy_deep_copies_values_witness :
    cUndef.Copy false cVec = Except.ok
      { m_is_defined := true,
        m_field_vec := [fun n => { ba := ((fun _ => cMf) n).ba,
                                   nComp := ((fun _ => cMf) n).nComp,
                                   nGrow := 0, vals := ((fun _ => cMf) n).vals }] } :=
  (Copy_deep_copies_values false cVec (fun _ => cMf) rfl rfl).1 cUndef rfl

/-- Claim C7: for every defined vector with the ownership mask built (a valid
owner classification of its layout), `norm2` equals the square root of
`dotProduct(X, X)`, is non-negative, and is zero iff the vector is identically
zero at every owned mesh point. -/
theorem norm2_sqrt_dot_nonneg_zero_iff
    (st : DotMaskState) (v : WarpXSolverVec)
    (fv : Fin 3 → MultiFab) (mk : Fin 3 → iMultiFab) (V : Fin 3 → Nat → Rat)
    (hst : st.m_dot_mask_defined = true) (hm : st.m_dotMask = [mk])
    (hvd : v.m_is_defined = true) (hv : v.m_field_vec = [fv])
    (hmask : ∀ n : Fin 3, ValidOwnerMask ((fv n).ba.pts) ((mk n).wts))
    (hvvals : ∀ n : Fin 3, (fv n).vals = ((fv n).ba.pts).map (V n)) :
    WarpXSolverVec.dotProduct st v v = Except.ok (uniquePointSum fv V V)
    ∧ WarpXSolverVec.norm2 st v
        = Except.ok (Real.sqrt ((uniquePointSum fv V V : Rat) : Real))
    ∧ (0 : Real) ≤ Real.sqrt ((uniquePointSum fv V V : Rat) : Real)
    ∧ (Real.sqrt ((uniquePointSum fv V V : Rat) : Real) = 0
        ↔ ∀ n : Fin 3, ∀ p ∈ (fv n).ba.pts, V n p = 0) := by
  have hdot := dotProduct_ok_uniquePointSum st v v fv fv mk V V hst hm hvd hv hvd hv
    hmask hvvals hvvals
  refine ⟨hdot, ?_, Real.sqrt_nonneg _, ?_⟩
  · unfold WarpXSolverVec.norm2
    rw [hdot]
    rfl
  · have hnn := uniquePointSum_self_nonneg fv V
    rw [Real.sqrt_eq_zero']
    constructor
    · intro hle
      have hr0 : ((uniquePointSum fv V V : Rat) : Real) = 0 :=
        le_antisymm hle (by exact_mod_cast hnn)
      have hq : uniquePointSum fv V V = 0 := by exact_mod_cast hr0
      exact (uniquePointSum_self_eq_zero_iff fv V).mp hq
    · intro hall
      have hq : uniquePointSum fv V V = 0 :=
        (uniquePointSum_self_eq_zero_iff fv V).mpr hall
      rw [hq]
      simp

/-- Witness for C7 at the concrete configuration `cSt`/`cVec`: the dot product
evaluates through the mask, the norm is its square root, and the zero-iff
criterion is available for the concrete values. -/
theorem norm2_sqrt_dot_nonneg_zero_iff_witness :
    WarpXSolverVec.dotProduct cSt cVec cVec
        = Except.ok (uniquePointSum (fun _ => cMf) cV cV)
    ∧ WarpXSolverVec.norm2 cSt cVec
        = Except.ok (Real.sqrt ((uniquePointSum (fun _ => cMf) cV cV : Rat) : Real))
    ∧ (0 : Real) ≤ Real.sqrt ((uniquePointSum (fun _ => cMf) cV cV : Rat) : Real)
    ∧ (Real.sqrt ((uniquePointSum (fun _ => cMf) cV cV : Rat) : Real) = 0
        ↔ ∀ n : Fin 3, ∀ p ∈ (((fun _ => cMf) n : MultiFab)).ba.pts, cV n p = 0) :=
  norm2_sqrt_dot_nonneg_zero_iff cSt cVec (fun _ => cMf) (fun _ => cMask) cV
    rfl rfl rfl rfl (by decide) (by decide)

theorem zipWith_add_sub_cancel (xs ys : List Rat) (h : xs.length = ys.length) :
    List.zipWith (fun a b => a - b) (List.zipWith (fun a b => a + b) xs ys) ys = xs := by
  induction xs generalizing ys with
  | nil => simp
  | cons a t ih =>
    cases ys with
    | nil => simp at h
    | cons b u =>
      simp only [List.zipWith_cons_cons, List.cons.injEq]
      refine ⟨by ring, ih u ?_⟩
      simpa using h

/-- Claim C8: for every pair of defined vectors with identical partitioning,
applying `operator+=` and then `operator-=` with the same operand restores the
original vector exactly at every mesh point. -/
theorem plusEq_minusEq_roundtrip
    (v y : WarpXSolverVec) (fv fy : Fin 3 → MultiFab)
    (hvd : v.m_is_defined = true) (hv : v.m_field_vec = [fv])
    (hyd : y.m_is_defined = true) (hy : y.m_field_vec = [fy])
    (hba : ∀ n : Fin 3, (fv n).ba = (fy n).ba)
    (hwfv : ∀ n : Fin 3, (fv n).vals.length = (fv n).ba.pts.length)
    (hwfy : ∀ n : Fin 3, (fy n).vals.length = (fy n).ba.pts.length) :
    (v.plusEq y >>= fun a => a.minusEq y) = Except.ok v := by
  have hlen : ∀ n : Fin 3, (fv n).vals.length = (fy n).vals.length := by
    intro n
    rw [hwfv n, hba n, hwfy n]
  have hfun : ∀ n : Fin 3, ((fv n).plus (fy n)).minus (fy n) = fv n := by
    intro n
    have hz := zipWith_add_sub_cancel ((fv n).vals) ((fy n).vals) (hlen n)
    show { fv n with vals := List.zipWith (fun a b => a - b) (List.zipWith (fun a b => a + b) ((fv n).vals) ((fy n).vals)) ((fy n).vals) } = fv n
    rw [hz]
  simp only [WarpXSolverVec.plusEq, WarpXSolverVec.minusEq, WarpXSolverVec.getVec,
    hv, hy, listAt_cons_zero, except_ok_bind, List.set_cons_zero,
    except_pure_eq_ok]
  have hfun2 : (fun n => (((fun m => (fv m).plus (fy m)) n).minus (fy n))) = fv := by
    funext n
    exact hfun n
  rw [hfun2, ← hv]

/-- Witness for C8 at the concrete vector `cVec` incremented and decremented by
itself. -/
theorem plusEq_minusEq_roundtrip_witness :
    (cVec.plusEq cVec >>= fun a => a.minusEq cVec) = Except.ok cVec :=
  plusEq_minusEq_roundtrip cVec cVec (fun _ => cMf) (fun _ => cMf)
    rfl rfl rfl rfl (by decide) (by decide) (by decide)

/-- Claim C9: move transfer is allowed; for every defined source vector it
moves ownership of all field arrays to the target — which afterwards holds
exactly the source's former arrays and reports defined — while the source is
left in a defined-but-emptied state (its flag still set, its array vector
empty), with no storage shared between the two. -/
theorem moveAssign_transfers_and_empties_source
    (v src : WarpXSolverVec) (h : src.m_is_defined = true) :
    (v.moveAssign src).1.getVec = src.getVec
    ∧ (v.moveAssign src).1.IsDefined = true
    ∧ (v.moveAssign src).2.IsDefined = true
    ∧ (v.moveAssign src).2.getVec = [] := by
  refine ⟨rfl, rfl, ?_, rfl⟩
  simpa [WarpXSolverVec.moveAssign, WarpXSolverVec.IsDefined] using h

/-- Witness for C9 at the concrete pair (`cUndef` target, `cVec` source). -/
theorem moveAssign_transfers_and_empties_source_witness :
    (cUndef.moveAssign cVec).1.getVec = cVec.getVec
    ∧ (cUndef.moveAssign cVec).1.IsDefined = true
    ∧ (cUndef.moveAssign cVec).2.IsDefined = true
    ∧ (cUndef.moveAssign cVec).2.getVec = [] :=
  moveAssign_transfers_and_empties_source cUndef cVec rfl

/-- Claim C10: move assignment from a distinct source unconditionally sets the
target's defined flag, even when the source was never defined, so the
invariant that a vector reporting defined owns storage for every level slot is
not preserved; self move assignment, by contrast, leaves the vector entirely
unchanged. -/
theorem moveAssign_sets_defined_unconditionally
    (v src : WarpXSolverVec)
    (h1 : src.m_is_defined = false) (h2 : src.m_field_vec = []) :
    ((v.moveAssign src).1.m_is_defined = true
     ∧ ¬ (v.moveAssign src).1.DefinedOwnsStorage)
    ∧ (∀ w : WarpXSolverVec, w.moveAssignSelf = w) := by
  refine ⟨⟨rfl, ?_⟩, fun w => rfl⟩
  intro hinv
  have hlen := hinv rfl
  simp [WarpXSolverVec.moveAssign, h2, WarpXSolverVec.m_num_amr_levels] at hlen

/-- Witness for C10 at the concrete pair (`cVec` target, `cUndef` source). -/
theorem moveAssign_sets_defined_unconditionally_witness :
    ((cVec.moveAssign cUndef).1.m_is_defined = true
     ∧ ¬ (cVec.moveAssign cUndef).1.DefinedOwnsStorage)
    ∧ (∀ w : WarpXSolverVec, w.moveAssignSelf = w) :=
  moveAssign_sets_defined_unconditionally cVec cUndef rfl rfl
